import Mathlib

/-!
Shallow embedding of the quote-calc application (a React pricing
calculator).  The data model follows `src/types.ts` and the interfaces at
the top of `src/src/App.tsx`; the pure calculation functions follow the
utils module (`src/unnamed/part_002`) and the identical inline versions in
`src/src/App.tsx`; the state-transition actions follow the handlers in
`src/src/App.tsx`.  JavaScript numbers are embedded as rationals (ℚ);
mutable accumulation loops (`forEach` with `cost += ...`) become `foldl`;
`Array.prototype.find` becomes `List.find?`; a JS `Map` built from key/value
pairs becomes an association list with insert-or-overwrite semantics.
-/

namespace QuoteCalc

/-- `PersistentItem` from `src/types.ts`: a catalog entry. -/
structure PersistentItem where
  id : String
  name : String
  cost : ℚ
  useCustomMarkup : Bool
  customMarkup : ℚ
deriving DecidableEq

/-- `QuoteItem` from `src/types.ts`: a reference to a catalog item plus a
quantity. -/
structure QuoteItem where
  itemId : String
  quantity : ℚ
deriving DecidableEq

/-- `SavedQuote` from `src/types.ts`: a snapshot of a finished quote. -/
structure SavedQuote where
  id : String
  name : String
  date : String
  items : List QuoteItem
  laborHours : ℚ
  totalPrice : ℚ
deriving DecidableEq

/-- `AppSettings` from `src/types.ts`: the root persisted aggregate. -/
structure AppSettings where
  targetHourly : ℚ
  wages : List ℚ
  globalMarkup : ℚ
  persistentItems : List PersistentItem
  savedQuotes : List SavedQuote
deriving DecidableEq

/-- `DEFAULT_SETTINGS` from `src/types.ts`. -/
def DEFAULT_SETTINGS : AppSettings :=
  { targetHourly := 100
    wages := [25]
    globalMarkup := 20
    persistentItems := []
    savedQuotes := [] }

/-- `calculateLaborCost` from the utils module:
`if (wages.length === 0 || laborHours === 0) return 0;`
then `wages.reduce((total, wage) => total + (wage * (laborHours / wages.length)), 0)`. -/
def calculateLaborCost (wages : List ℚ) (laborHours : ℚ) : ℚ :=
  if wages.length = 0 ∨ laborHours = 0 then 0
  else wages.foldl (fun total wage => total + wage * (laborHours / (wages.length : ℚ))) 0

/-- `calculateLaborPrice` from the utils module: `laborHours * targetHourly`. -/
def calculateLaborPrice (laborHours targetHourly : ℚ) : ℚ :=
  laborHours * targetHourly

/-- The `{ cost, price }` record returned by `calculateMaterials`. -/
structure Materials where
  cost : ℚ
  price : ℚ
deriving DecidableEq

/-- One iteration of the `quoteItems.forEach` loop in `calculateMaterials`:
resolve `itemId` against the catalog with `find`; on a miss `return` (skip);
otherwise accumulate `itemCost` and `itemPrice`. -/
def materialsStep (persistentItems : List PersistentItem) (globalMarkup : ℚ)
    (acc : Materials) (qItem : QuoteItem) : Materials :=
  match persistentItems.find? (fun i => i.id = qItem.itemId) with
  | none => acc
  | some pItem =>
    let itemCost := pItem.cost * qItem.quantity
    let markup := if pItem.useCustomMarkup then pItem.customMarkup else globalMarkup
    let itemPrice := itemCost * (1 + markup / 100)
    { cost := acc.cost + itemCost, price := acc.price + itemPrice }

/-- `calculateMaterials` from the utils module (identical arithmetic to
`calculateMaterialTotals` in `src/src/App.tsx`). -/
def calculateMaterials (quoteItems : List QuoteItem)
    (persistentItems : List PersistentItem) (globalMarkup : ℚ) : Materials :=
  quoteItems.foldl (materialsStep persistentItems globalMarkup) { cost := 0, price := 0 }

/-- JavaScript `String.prototype.trim()` (used in `saveCurrentQuote` as
`quoteName.trim()`): removes leading and trailing whitespace characters. -/
def jsTrim (s : String) : String :=
  ⟨((s.data.dropWhile Char.isWhitespace).reverse.dropWhile Char.isWhitespace).reverse⟩

/-- `Partial<AppSettings>`: each field optionally present. -/
structure AppSettingsPatch where
  targetHourly : Option ℚ
  wages : Option (List ℚ)
  globalMarkup : Option ℚ
  persistentItems : Option (List PersistentItem)
  savedQuotes : Option (List SavedQuote)

/-- The empty partial update (`{}`). -/
def noPatch : AppSettingsPatch := ⟨none, none, none, none, none⟩

/-- `updateSettings` from `src/src/App.tsx`:
`setSettings(prev => ({ ...prev, ...updates }))` — a shallow merge replacing
only the fields present in the partial. -/
def updateSettings (prev : AppSettings) (updates : AppSettingsPatch) : AppSettings :=
  { targetHourly := updates.targetHourly.getD prev.targetHourly
    wages := updates.wages.getD prev.wages
    globalMarkup := updates.globalMarkup.getD prev.globalMarkup
    persistentItems := updates.persistentItems.getD prev.persistentItems
    savedQuotes := updates.savedQuotes.getD prev.savedQuotes }

/-- `Partial<PersistentItem>`: each field optionally present. -/
structure PersistentItemPatch where
  id : Option String
  name : Option String
  cost : Option ℚ
  useCustomMarkup : Option Bool
  customMarkup : Option ℚ

/-- The object spread `{ ...item, ...updates }` for a catalog item. -/
def applyItemPatch (item : PersistentItem) (u : PersistentItemPatch) : PersistentItem :=
  { id := u.id.getD item.id
    name := u.name.getD item.name
    cost := u.cost.getD item.cost
    useCustomMarkup := u.useCustomMarkup.getD item.useCustomMarkup
    customMarkup := u.customMarkup.getD item.customMarkup }

/-- `updatePersistentItem` from `src/src/App.tsx`: map over the catalog,
spreading the updates into the item whose id matches. -/
def updatePersistentItem (s : AppSettings) (id : String) (updates : PersistentItemPatch) :
    AppSettings :=
  updateSettings s
    { noPatch with
      persistentItems :=
        some (s.persistentItems.map fun item =>
          if item.id = id then applyItemPatch item updates else item) }

/-- `removePersistentItem` from `src/src/App.tsx` (the branch where the user
confirms the dialog): filter the item out of the catalog. -/
def removePersistentItem (s : AppSettings) (id : String) : AppSettings :=
  updateSettings s
    { noPatch with
      persistentItems := some (s.persistentItems.filter fun item => item.id != id) }

/-- `deleteSavedQuote` from `src/src/App.tsx` (confirmed branch). -/
def deleteSavedQuote (s : AppSettings) (id : String) : AppSettings :=
  updateSettings s
    { noPatch with savedQuotes := some (s.savedQuotes.filter fun q => q.id != id) }

/-- The component state of `App`: the persisted settings plus the transient
working quote (`laborHours`, `quoteItems`, `quoteName`). -/
structure AppState where
  settings : AppSettings
  laborHours : ℚ
  quoteItems : List QuoteItem
  quoteName : String
deriving DecidableEq

/-- `saveCurrentQuote` from `src/src/App.tsx`.  The generated id
(`crypto.randomUUID()`) and the date string are nondeterministic inputs and
are passed as parameters.  The returned `String` is the `alert` message. -/
def saveCurrentQuote (freshId today : String) (s : AppState) : AppState × String :=
  if jsTrim s.quoteName = "" then (s, "Please enter a name for the quote")
  else
    let materials := calculateMaterials s.quoteItems s.settings.persistentItems
      s.settings.globalMarkup
    let laborP := s.laborHours * s.settings.targetHourly
    let newSavedQuote : SavedQuote :=
      { id := freshId
        name := s.quoteName
        date := today
        items := s.quoteItems
        laborHours := s.laborHours
        totalPrice := materials.price + laborP }
    ({ s with
        settings := updateSettings s.settings
          { noPatch with savedQuotes := some (newSavedQuote :: s.settings.savedQuotes) }
        quoteName := "" },
     "Quote saved!")

/-- `loadSavedQuote` from `src/src/App.tsx` at the level of values: replace
the transient quote with the saved quote's contents (`setActiveTab` is
presentation and not modelled).  Reference-level aliasing is modelled
separately by `refLoadSavedQuote`. -/
def loadSavedQuote (quote : SavedQuote) (s : AppState) : AppState :=
  { s with
    quoteItems := quote.items
    laborHours := quote.laborHours
    quoteName := quote.name }

/-- One `set` call on a JavaScript `Map` held as an association list: if the
key is present, overwrite its value in place (keeping its position);
otherwise append the new pair. -/
def jsMapSet (m : List (String × SavedQuote)) (k : String) (v : SavedQuote) :
    List (String × SavedQuote) :=
  if m.any (fun p => p.1 = k) then m.map (fun p => if p.1 = k then (k, v) else p)
  else m ++ [(k, v)]

/-- `new Map(pairs)`: insert the pairs left to right into an empty map. -/
def jsMapOfPairs (l : List (String × SavedQuote)) : List (String × SavedQuote) :=
  l.foldl (fun m p => jsMapSet m p.1 p.2) []

/-- `importSavedQuotes` from `src/src/App.tsx` (the branch where the pasted
payload parsed to an array):
`const newQuotes = [...parsed, ...settings.savedQuotes];`
`const uniqueQuotes = Array.from(new Map(newQuotes.map(q => [q.id, q])).values());`
then `updateSettings({ savedQuotes: uniqueQuotes })`. -/
def importSavedQuotes (parsed : List SavedQuote) (s : AppSettings) : AppSettings :=
  let newQuotes := parsed ++ s.savedQuotes
  let uniqueQuotes := (jsMapOfPairs (newQuotes.map fun q => (q.id, q))).map Prod.snd
  updateSettings s { noPatch with savedQuotes := some uniqueQuotes }

/-- A persisted settings blob that parsed successfully, with the
`savedQuotes` field possibly absent (older schema): the input of the
migration step in the `settings` `useState` initializer of
`src/src/App.tsx`. -/
structure ParsedSettings where
  targetHourly : ℚ
  wages : List ℚ
  globalMarkup : ℚ
  persistentItems : List PersistentItem
  savedQuotes : Option (List SavedQuote)
deriving DecidableEq

/-- The migration in the `settings` initializer:
`if (!parsed.savedQuotes) parsed.savedQuotes = []; return parsed;` —
an absent `savedQuotes` becomes the empty list, all other fields are
returned as parsed. -/
def migrateSettings (parsed : ParsedSettings) : AppSettings :=
  { targetHourly := parsed.targetHourly
    wages := parsed.wages
    globalMarkup := parsed.globalMarkup
    persistentItems := parsed.persistentItems
    savedQuotes := parsed.savedQuotes.getD [] }

/-- Render-time derived value `laborCost` (`src/src/App.tsx` line 290). -/
def laborCostOf (s : AppState) : ℚ :=
  calculateLaborCost s.settings.wages s.laborHours

/-- Render-time derived value `laborPrice` (line 291). -/
def laborPriceOf (s : AppState) : ℚ :=
  s.laborHours * s.settings.targetHourly

/-- Render-time derived value `materials` (line 292). -/
def materialsOf (s : AppState) : Materials :=
  calculateMaterials s.quoteItems s.settings.persistentItems s.settings.globalMarkup

/-- Render-time derived value `totalCost` (line 294). -/
def totalCostOf (s : AppState) : ℚ :=
  laborCostOf s + (materialsOf s).cost

/-- Render-time derived value `totalPrice` (line 295). -/
def totalPriceOf (s : AppState) : ℚ :=
  laborPriceOf s + (materialsOf s).price

/-- Render-time derived value `profit` (line 296). -/
def profitOf (s : AppState) : ℚ :=
  totalPriceOf s - totalCostOf s

/-- Render-time derived value `margin` (line 297):
`totalPrice > 0 ? (profit / totalPrice) * 100 : 0`. -/
def marginOf (s : AppState) : ℚ :=
  if totalPriceOf s > 0 then profitOf s / totalPriceOf s * 100 else 0

/-!
Reference-level model.  In JavaScript, arrays of objects hold references;
`loadSavedQuote` stores the saved quote's `items` array itself into the
working state, and `updateQuoteItemQuantity` copies the array but assigns
through a shared element reference (`newItems[index].quantity = quantity`).
To express this, `QuoteItem` objects live in a heap (addresses are list
indices) and both the working quote and saved quotes hold addresses.
-/

/-- `SavedQuote` at the reference level: `items` holds heap addresses. -/
structure RefSavedQuote where
  id : String
  name : String
  date : String
  items : List Nat
  laborHours : ℚ
  totalPrice : ℚ
deriving DecidableEq

/-- Reference-level component state: a heap of `QuoteItem` objects plus the
state variables holding references into it. -/
structure RefState where
  heap : List QuoteItem
  savedQuotes : List RefSavedQuote
  quoteItems : List Nat
  laborHours : ℚ
  quoteName : String
deriving DecidableEq

/-- `loadSavedQuote` at the reference level: `setQuoteItems(quote.items)`
stores the same array of object references — no copy is made. -/
def refLoadSavedQuote (quote : RefSavedQuote) (s : RefState) : RefState :=
  { s with
    quoteItems := quote.items
    laborHours := quote.laborHours
    quoteName := quote.name }

/-- `updateQuoteItemQuantity` at the reference level:
`const newItems = [...quoteItems]` copies the array of references (so the
address list is unchanged), and `newItems[index].quantity = quantity`
mutates the referenced `QuoteItem` object in place — an update of the heap
at address `quoteItems[index]`. -/
def refUpdateQuoteItemQuantity (index : Nat) (quantity : ℚ) (s : RefState) : RefState :=
  match s.quoteItems.get? index with
  | none => s
  | some addr =>
    match s.heap.get? addr with
    | none => s
    | some item => { s with heap := s.heap.set addr { item with quantity := quantity } }

/-- Dereference a list of item addresses against the heap: the `QuoteItem`
values an observer (render, save, export) actually sees. -/
def derefItems (heap : List QuoteItem) (addrs : List Nat) : List (Option QuoteItem) :=
  addrs.map fun a => heap.get? a

/-- Per-item cost as the spec states it (section 4.1 `materialTotals`):
resolve `itemId` against the catalog, contribute `unitCost * quantity`, or
nothing on a dangling reference.  Spec-side definition, to be compared with
`calculateMaterials`. -/
def specItemCost (catalog : List PersistentItem) (q : QuoteItem) : ℚ :=
  match catalog.find? (fun i => i.id = q.itemId) with
  | none => 0
  | some p => p.cost * q.quantity

/-- Per-item price as the spec states it (section 4.1 `materialTotals`):
`itemCost * (1 + markup/100)` with the markup taken from the item when
`useCustomMarkup` is set and from the global setting otherwise.  Spec-side
definition, to be compared with `calculateMaterials`. -/
def specItemPrice (catalog : List PersistentItem) (globalMarkup : ℚ) (q : QuoteItem) : ℚ :=
  match catalog.find? (fun i => i.id = q.itemId) with
  | none => 0
  | some p =>
    let markup := if p.useCustomMarkup then p.customMarkup else globalMarkup
    p.cost * q.quantity * (1 + markup / 100)

/-- Value lookup in an association-list map: the value of the first pair
with the given key, if any. -/
def lookupVal (k : String) (m : List (String × SavedQuote)) : Option SavedQuote :=
  (m.find? (fun p => p.1 = k)).map Prod.snd

/-- The last pair with the given key in a list of pairs (the pair a JS
`Map` built from that list stores for the key, since later `set` calls
overwrite earlier ones). -/
def lastWith (k : String) (l : List (String × SavedQuote)) : Option (String × SavedQuote) :=
  l.reverse.find? (fun p => p.1 = k)

/-- The existing saved quote of the merge example: id `"a"`, name `"old"`. -/
def c1ExistingA : SavedQuote := ⟨"a", "old", "", [], 0, 0⟩

/-- The imported quote colliding on id `"a"`, named `"new"`. -/
def c1ImportedA : SavedQuote := ⟨"a", "new", "", [], 0, 0⟩

/-- The imported quote with the fresh id `"b"`. -/
def c1ImportedB : SavedQuote := ⟨"b", "b", "", [], 0, 0⟩

/-- A saved quote at the reference level whose single item lives at heap
address 0. -/
def c2Quote : RefSavedQuote := ⟨"q1", "Job", "2026-01-01", [0], 2, 0⟩

/-- Reference-level state: the heap holds one `QuoteItem` (id `"x"`,
quantity 1), referenced only by the saved quote `c2Quote`. -/
def c2State : RefState :=
  { heap := [⟨"x", 1⟩]
    savedQuotes := [c2Quote]
    quoteItems := []
    laborHours := 0
    quoteName := "" }

/-- Scenario state of the frozen-total test: catalog item `"it"` with cost
10, global markup 0, one unit of `"it"` in the working quote, no labor,
quote named `"Job"`. -/
def c3State0 : AppState :=
  { settings :=
      { targetHourly := 100
        wages := [25]
        globalMarkup := 0
        persistentItems := [⟨"it", "Widget", 10, false, 0⟩]
        savedQuotes := [] }
    laborHours := 0
    quoteItems := [⟨"it", 1⟩]
    quoteName := "Job" }

/-- Settings after saving the quote of `c3State0` and then changing the
catalog item's cost to 100 via `updatePersistentItem`. -/
def c3Settings2 : AppSettings :=
  updatePersistentItem (saveCurrentQuote "q1" "d" c3State0).1.settings "it"
    ⟨none, none, some 100, none, none⟩

/-- The state with no labor and no materials (margin guard example). -/
def c7Empty : AppState := ⟨DEFAULT_SETTINGS, 0, [], ""⟩

/-- A state with 8 labor hours and no materials (positive total price). -/
def c7Labor : AppState := ⟨DEFAULT_SETTINGS, 8, [], ""⟩

/-- A state whose working quote has an empty name. -/
def c9State : AppState := ⟨DEFAULT_SETTINGS, 3, [⟨"x", 1⟩], ""⟩

/-- A state whose working quote is named `"Job"`. -/
def c10State : AppState := ⟨DEFAULT_SETTINGS, 2, [⟨"x", 1⟩], "Job"⟩

/-!
Helper lemmas about the association-list embedding of the JavaScript `Map`
used by `importSavedQuotes`.
-/

lemma mem_jsMapSet {m : List (String × SavedQuote)} {k : String} {v : SavedQuote}
    {p : String × SavedQuote} (hp : p ∈ jsMapSet m k v) : p = (k, v) ∨ p ∈ m := by
  unfold jsMapSet at hp
  split at hp
  · rcases List.mem_map.mp hp with ⟨q, hq, hq2⟩
    by_cases h : q.1 = k
    · left; rw [← hq2]; simp [h]
    · right; rw [← hq2]; simp only [if_neg h]; exact hq
  · rcases List.mem_append.mp hp with h | h
    · right; exact h
    · left; simpa using h

lemma any_key_iff (m : List (String × SavedQuote)) (k : String) :
    m.any (fun p => p.1 = k) = true ↔ k ∈ m.map Prod.fst := by
  rw [List.any_eq_true]
  constructor
  · rintro ⟨p, hp, hpk⟩
    exact List.mem_map.mpr ⟨p, hp, by simpa using hpk⟩
  · intro h
    rcases List.mem_map.mp h with ⟨p, hp, rfl⟩
    exact ⟨p, hp, by simp⟩

lemma keys_jsMapSet (m : List (String × SavedQuote)) (k : String) (v : SavedQuote) :
    (jsMapSet m k v).map Prod.fst =
      if k ∈ m.map Prod.fst then m.map Prod.fst else m.map Prod.fst ++ [k] := by
  unfold jsMapSet
  by_cases h : m.any (fun p => p.1 = k) = true
  · rw [if_pos h, if_pos ((any_key_iff m k).mp h), List.map_map]
    apply List.map_congr_left
    intro p _
    by_cases hpk : p.1 = k <;> simp [hpk]
  · rw [if_neg h, if_neg (fun hmem => h ((any_key_iff m k).mpr hmem))]
    simp

lemma nodupKeys_jsMapSet {m : List (String × SavedQuote)} {k : String} {v : SavedQuote}
    (h : (m.map Prod.fst).Nodup) : ((jsMapSet m k v).map Prod.fst).Nodup := by
  rw [keys_jsMapSet]
  split
  · exact h
  · next hk => simp [List.nodup_append, h, hk]

lemma find?_map_overwrite (k : String) (v : SavedQuote) (m : List (String × SavedQuote))
    (h : ∃ p ∈ m, p.1 = k) :
    (m.map fun p => if p.1 = k then (k, v) else p).find? (fun p => p.1 = k) = some (k, v) := by
  induction m with
  | nil => simp at h
  | cons q t ih =>
    by_cases hq : q.1 = k
    · simp [List.find?, hq]
    · rcases h with ⟨p, hp, hpk⟩
      rcases List.mem_cons.mp hp with rfl | hpt
      · exact absurd hpk hq
      · simp only [List.map_cons, if_neg hq, List.find?]
        rw [ih ⟨p, hpt, hpk⟩]
        simp [hq]

lemma find?_map_overwrite_ne (k kq : String) (v : SavedQuote) (m : List (String × SavedQuote))
    (hne : kq ≠ k) :
    (m.map fun p => if p.1 = k then (k, v) else p).find? (fun p => p.1 = kq)
      = m.find? (fun p => p.1 = kq) := by
  induction m with
  | nil => simp
  | cons q t ih =>
    by_cases hq : q.1 = k
    · simp only [List.map_cons, if_pos hq, List.find?]
      rw [ih]
      simp [hq, Ne.symm hne]
    · simp only [List.map_cons, if_neg hq, List.find?]
      by_cases hq2 : q.1 = kq <;> simp [hq2, ih]

lemma lookupVal_jsMapSet_self (m : List (String × SavedQuote)) (k : String) (v : SavedQuote) :
    lookupVal k (jsMapSet m k v) = some v := by
  unfold lookupVal jsMapSet
  by_cases h : m.any (fun p => p.1 = k) = true
  · rw [if_pos h, find?_map_overwrite k v m]
    · rfl
    · rcases List.any_eq_true.mp h with ⟨p, hp, hpk⟩
      exact ⟨p, hp, by simpa using hpk⟩
  · rw [if_neg h, List.find?_append]
    have hnone : m.find? (fun p => p.1 = k) = none := by
      rw [List.find?_eq_none]
      intro p hp hpk
      exact h ((any_key_iff m k).mpr (List.mem_map.mpr ⟨p, hp, by simpa using hpk⟩))
    simp [hnone, List.find?]

lemma lookupVal_jsMapSet_ne (m : List (String × SavedQuote)) (k kq : String) (v : SavedQuote)
    (hne : kq ≠ k) : lookupVal kq (jsMapSet m k v) = lookupVal kq m := by
  unfold lookupVal jsMapSet
  by_cases h : m.any (fun p => p.1 = k) = true
  · rw [if_pos h, find?_map_overwrite_ne k kq v m hne]
  · rw [if_neg h, List.find?_append]
    have h2 : List.find? (fun p => p.1 = kq) [(k, v)] = none := by
      simp [List.find?, Ne.symm hne]
    simp [h2]

lemma lastWith_cons (k : String) (q : String × SavedQuote) (t : List (String × SavedQuote)) :
    lastWith k (q :: t) = (lastWith k t).or (if q.1 = k then some q else none) := by
  unfold lastWith
  rw [List.reverse_cons, List.find?_append]
  congr 1
  by_cases hq : q.1 = k <;> simp [List.find?, hq]

lemma lookupVal_jsMapFold (k : String) :
    ∀ (l m : List (String × SavedQuote)),
      lookupVal k (l.foldl (fun acc p => jsMapSet acc p.1 p.2) m) =
        ((lastWith k l).map Prod.snd).or (lookupVal k m) := by
  intro l
  induction l with
  | nil => intro m; simp [lastWith]
  | cons q t ih =>
    intro m
    rw [List.foldl_cons, ih, lastWith_cons]
    cases hl : lastWith k t with
    | some p => simp
    | none =>
      simp only [Option.map_none', Option.none_or]
      by_cases hq : q.1 = k
      · rw [if_pos hq, ← hq]
        simp [lookupVal_jsMapSet_self]
      · rw [if_neg hq]
        simpa using lookupVal_jsMapSet_ne m q.1 k q.2 (Ne.symm hq)

lemma nodupKeys_jsMapFold :
    ∀ (l m : List (String × SavedQuote)), (m.map Prod.fst).Nodup →
      ((l.foldl (fun acc p => jsMapSet acc p.1 p.2) m).map Prod.fst).Nodup := by
  intro l
  induction l with
  | nil => intro m h; simpa using h
  | cons q t ih =>
    intro m h
    rw [List.foldl_cons]
    exact ih _ (nodupKeys_jsMapSet h)

lemma mem_keys_jsMapSet (m : List (String × SavedQuote)) (k kq : String) (v : SavedQuote) :
    kq ∈ (jsMapSet m k v).map Prod.fst ↔ kq ∈ m.map Prod.fst ∨ kq = k := by
  rw [keys_jsMapSet]
  split
  · next h =>
    constructor
    · exact Or.inl
    · rintro (h2 | rfl)
      · exact h2
      · exact h
  · simp

lemma mem_keys_jsMapFold (k : String) :
    ∀ (l m : List (String × SavedQuote)),
      k ∈ (l.foldl (fun acc p => jsMapSet acc p.1 p.2) m).map Prod.fst ↔
        k ∈ m.map Prod.fst ∨ k ∈ l.map Prod.fst := by
  intro l
  induction l with
  | nil => intro m; simp
  | cons q t ih =>
    intro m
    rw [List.foldl_cons, ih, mem_keys_jsMapSet]
    simp only [List.map_cons, List.mem_cons]
    tauto

lemma snd_id_jsMapFold :
    ∀ (l m : List (String × SavedQuote)), (∀ p ∈ m, p.2.id = p.1) →
      (∀ p ∈ l, p.2.id = p.1) →
      ∀ p ∈ l.foldl (fun acc p => jsMapSet acc p.1 p.2) m, p.2.id = p.1 := by
  intro l
  induction l with
  | nil => intro m hm _ p hp; exact hm p hp
  | cons q t ih =>
    intro m hm hl p hp
    rw [List.foldl_cons] at hp
    refine ih _ ?_ (fun r hr => hl r (List.mem_cons_of_mem _ hr)) p hp
    intro r hr
    rcases mem_jsMapSet hr with rfl | hrm
    · simpa using hl q (List.mem_cons_self q t)
    · exact hm r hrm

lemma importSavedQuotes_savedQuotes (parsed : List SavedQuote) (s : AppSettings) :
    (importSavedQuotes parsed s).savedQuotes =
      (jsMapOfPairs ((parsed ++ s.savedQuotes).map fun q => (q.id, q))).map Prod.snd := rfl

/-!
Helper lemmas about the accumulation loops of the pricing engine.
-/

lemma foldl_add_mul (c : ℚ) (W : List ℚ) : ∀ a : ℚ,
    W.foldl (fun total wage => total + wage * c) a = a + W.sum * c := by
  induction W with
  | nil => intro a; simp
  | cons w t ih =>
    intro a
    rw [List.foldl_cons, ih, List.sum_cons]
    ring

lemma sum_map_mul (c : ℚ) (W : List ℚ) : (W.map fun w => w * c).sum = W.sum * c := by
  induction W with
  | nil => simp
  | cons w t ih =>
    rw [List.map_cons, List.sum_cons, List.sum_cons, ih]
    ring

lemma calculateMaterials_foldl (cat : List PersistentItem) (g : ℚ) :
    ∀ (qs : List QuoteItem) (acc : Materials),
      qs.foldl (materialsStep cat g) acc =
        ⟨acc.cost + (qs.map (specItemCost cat)).sum,
         acc.price + (qs.map (specItemPrice cat g)).sum⟩ := by
  intro qs
  induction qs with
  | nil => intro acc; simp
  | cons q t ih =>
    intro acc
    rw [List.foldl_cons, ih]
    cases hfind : cat.find? (fun i => i.id = q.itemId) with
    | none =>
      simp [materialsStep, specItemCost, specItemPrice, hfind]
    | some p =>
      simp [materialsStep, specItemCost, specItemPrice, hfind, Materials.mk.injEq]
      constructor <;> ring

/-!
Claim theorems.
-/

/-- Claim C1, as stated, is false on the code: merging existing
`[c1ExistingA]` (id `"a"`, name `"old"`) with imported
`[c1ImportedA, c1ImportedB]` does NOT produce an entry with id `"a"` and
name `"new"` — a JS `Map` built from `[...parsed, ...existing]` keeps the
LAST value set for a key, so the existing entry wins the collision. -/
theorem importSavedQuotes_counterexample :
    ¬ ∃ q ∈ (importSavedQuotes [c1ImportedA, c1ImportedB]
        { DEFAULT_SETTINGS with savedQuotes := [c1ExistingA] }).savedQuotes,
      q.id = "a" ∧ q.name = "new" := by decide

/-- Claim C1 (amended): `importSavedQuotes` replaces `savedQuotes` with the
id-keyed merge of the concatenation imported-then-existing in which entries
sharing a duplicate id collapse to the value encountered LAST in that
concatenation order (each id keeping the position of its first occurrence):
the merged ids are duplicate-free, an id occurs in the merge iff it occurs
in the concatenation, the entry stored for an id is the last entry with
that id, hence for every id present among the existing quotes the merge
contains an existing entry with that id (existing wins on collision), and
the merge of existing `[c1ExistingA]` with imported
`[c1ImportedA, c1ImportedB]` is `[c1ExistingA, c1ImportedB]` — two entries,
the id-`"a"` entry named `"old"`. -/
theorem importSavedQuotes_spec (s : AppSettings) (parsed : List SavedQuote) :
    ((importSavedQuotes parsed s).savedQuotes.map SavedQuote.id).Nodup
    ∧ (∀ k, k ∈ (importSavedQuotes parsed s).savedQuotes.map SavedQuote.id ↔
        k ∈ (parsed ++ s.savedQuotes).map SavedQuote.id)
    ∧ (∀ k q, lastWith k ((parsed ++ s.savedQuotes).map fun q0 => (q0.id, q0)) = some (k, q) →
        q ∈ (importSavedQuotes parsed s).savedQuotes)
    ∧ (∀ k, k ∈ s.savedQuotes.map SavedQuote.id →
        ∃ e ∈ s.savedQuotes, e.id = k ∧ e ∈ (importSavedQuotes parsed s).savedQuotes)
    ∧ (importSavedQuotes [c1ImportedA, c1ImportedB]
        { DEFAULT_SETTINGS with savedQuotes := [c1ExistingA] }).savedQuotes
        = [c1ExistingA, c1ImportedB] := by
  set pairs := (parsed ++ s.savedQuotes).map (fun q0 => (q0.id, q0)) with hpairs
  have hinv : ∀ p ∈ jsMapOfPairs pairs, p.2.id = p.1 := by
    apply snd_id_jsMapFold pairs [] (by simp)
    intro p hp
    rcases List.mem_map.mp hp with ⟨q0, _, rfl⟩
    rfl
  have hids : (importSavedQuotes parsed s).savedQuotes.map SavedQuote.id
      = (jsMapOfPairs pairs).map Prod.fst := by
    rw [importSavedQuotes_savedQuotes, List.map_map]
    exact List.map_congr_left hinv
  have hkeys_pairs : pairs.map Prod.fst = (parsed ++ s.savedQuotes).map SavedQuote.id := by
    rw [hpairs, List.map_map]
    rfl
  have hmem : ∀ k q, lastWith k pairs = some (k, q) →
      q ∈ (importSavedQuotes parsed s).savedQuotes := by
    intro k q hlast
    have hlook : lookupVal k (jsMapOfPairs pairs) = some q := by
      have h0 := lookupVal_jsMapFold k pairs []
      rw [hlast] at h0
      simpa [lookupVal] using h0
    rcases Option.map_eq_some.mp hlook with ⟨p0, hfind, hp0⟩
    rw [importSavedQuotes_savedQuotes]
    exact hp0 ▸ List.mem_map.mpr ⟨p0, List.mem_of_find?_eq_some hfind, rfl⟩
  refine ⟨?_, ?_, hmem, ?_, ?_⟩
  · rw [hids]
    exact nodupKeys_jsMapFold pairs [] (by simp)
  · intro k
    rw [hids]
    unfold jsMapOfPairs
    rw [mem_keys_jsMapFold k pairs [], hkeys_pairs]
    simp
  · intro k hk
    have hex : ∃ p ∈ (s.savedQuotes.map fun q0 => (q0.id, q0)).reverse, (p.1 = k : Bool) := by
      rcases List.mem_map.mp hk with ⟨e, he, rfl⟩
      exact ⟨(e.id, e), List.mem_reverse.mpr (List.mem_map.mpr ⟨e, he, rfl⟩), by simp⟩
    have hfind : ∃ p0, (s.savedQuotes.map fun q0 => (q0.id, q0)).reverse.find?
        (fun p => p.1 = k) = some p0 := by
      cases hcase : (s.savedQuotes.map fun q0 => (q0.id, q0)).reverse.find? (fun p => p.1 = k) with
      | some p0 => exact ⟨p0, rfl⟩
      | none =>
        rcases hex with ⟨p, hp, hpk⟩
        exact absurd hpk (by simpa using List.find?_eq_none.mp hcase p hp)
    rcases hfind with ⟨p0, hp0⟩
    have hp0mem : p0 ∈ (s.savedQuotes.map fun q0 => (q0.id, q0)) :=
      List.mem_reverse.mp (List.mem_of_find?_eq_some hp0)
    have hp0k : p0.1 = k := by simpa using List.find?_some hp0
    rcases List.mem_map.mp hp0mem with ⟨e, he, hpe⟩
    have hlast : lastWith k pairs = some (k, e) := by
      rw [hpairs, List.map_append]
      unfold lastWith
      rw [List.reverse_append, List.find?_append, hp0]
      have hpk : p0 = (k, e) := by
        rw [← hpe] at hp0k ⊢
        rw [← hp0k]
      rw [hpk]
      rfl
    exact ⟨e, he, by rw [← hpe] at hp0k; simpa using hp0k, hmem k e hlast⟩
  · decide

/-- Witness for claim C1: applying the merge theorem at the concrete
example shows the existing id-`"a"` entry survives the merge. -/
theorem importSavedQuotes_spec_witness :
    c1ExistingA ∈ (importSavedQuotes [c1ImportedA, c1ImportedB]
      { DEFAULT_SETTINGS with savedQuotes := [c1ExistingA] }).savedQuotes :=
  (importSavedQuotes_spec { DEFAULT_SETTINGS with savedQuotes := [c1ExistingA] }
    [c1ImportedA, c1ImportedB]).2.2.1 "a" c1ExistingA (by decide)

/-- Claim C2 (code bug): loading a saved quote aliases its `items` array
into the working state, and `updateQuoteItemQuantity` assigns through the
shared element reference, so editing a quantity after a load mutates the
saved snapshot.  Concretely: the saved quote `c2Quote` dereferences to an
item of quantity 1 before the edit; after loading it and setting the first
quantity to 5, the entry still held in `savedQuotes` dereferences to
quantity 5 — the spec's "this is a copy, so subsequent edits to the working
quote do not mutate the saved snapshot" fails on the code. -/
theorem loadThenEdit_mutates_saved_quote :
    derefItems c2State.heap c2Quote.items = [some ⟨"x", 1⟩]
    ∧ (refUpdateQuoteItemQuantity 0 5 (refLoadSavedQuote c2Quote c2State)).savedQuotes
        = [c2Quote]
    ∧ derefItems (refUpdateQuoteItemQuantity 0 5 (refLoadSavedQuote c2Quote c2State)).heap
        c2Quote.items = [some ⟨"x", 5⟩] := by decide

/-- Claim C3: catalog mutations (`updatePersistentItem`,
`removePersistentItem`) leave `savedQuotes` — in particular every saved
`totalPrice` — unchanged; and in the concrete scenario (item cost 10,
markup 0, one unit saved at `totalPrice` 10, then the item's cost changed
to 100) the saved `totalPrice` is still 10 even though live recomputation
from the saved items now yields 100. -/
theorem savedQuotes_frame (s : AppSettings) (id : String) (u : PersistentItemPatch) :
    (updatePersistentItem s id u).savedQuotes = s.savedQuotes
    ∧ (removePersistentItem s id).savedQuotes = s.savedQuotes
    ∧ (updatePersistentItem s id u).savedQuotes.map SavedQuote.totalPrice
        = s.savedQuotes.map SavedQuote.totalPrice
    ∧ c3Settings2.savedQuotes.map SavedQuote.totalPrice = [10]
    ∧ c3Settings2.savedQuotes.map
        (fun q => (calculateMaterials q.items c3Settings2.persistentItems
          c3Settings2.globalMarkup).price) = [100] := by
  have hsave : (saveCurrentQuote "q1" "d" c3State0).1.settings.savedQuotes
      = [(⟨"q1", "Job", "d", [⟨"it", 1⟩], 0, 10⟩ : SavedQuote)]
      ∧ (saveCurrentQuote "q1" "d" c3State0).1.settings.persistentItems
        = [⟨"it", "Widget", 10, false, 0⟩]
      ∧ (saveCurrentQuote "q1" "d" c3State0).1.settings.globalMarkup = 0 := by
    unfold saveCurrentQuote
    rw [if_neg (by decide)]
    refine ⟨?_, rfl, rfl⟩
    norm_num [c3State0, calculateMaterials, materialsStep, List.find?, updateSettings, noPatch]
  refine ⟨rfl, rfl, rfl, ?_, ?_⟩
  · norm_num [c3Settings2, updatePersistentItem, updateSettings, noPatch, hsave.1]
  · norm_num [c3Settings2, updatePersistentItem, updateSettings, noPatch, hsave.1, hsave.2.1,
      hsave.2.2, applyItemPatch, calculateMaterials, materialsStep, List.find?]

/-- Claim C4: `calculateLaborCost` returns 0 when the wage list is empty or
the hours are 0, and otherwise returns the sum over all wage entries of
`wage_i * (hours / count)`, which equals `hours * average(wages)`; moreover
`calculateLaborCost [25] 8 = 200` and `calculateLaborCost [20, 30] 10 = 250`. -/
theorem calculateLaborCost_spec (W : List ℚ) (h : ℚ) :
    ((W = [] ∨ h = 0) → calculateLaborCost W h = 0)
    ∧ (W ≠ [] → h ≠ 0 →
        calculateLaborCost W h = (W.map fun w => w * (h / (W.length : ℚ))).sum
        ∧ calculateLaborCost W h = h * (W.sum / (W.length : ℚ)))
    ∧ calculateLaborCost [25] 8 = 200
    ∧ calculateLaborCost [20, 30] 10 = 250 := by
  refine ⟨?_, ?_, ?_, ?_⟩
  · rintro (rfl | rfl) <;> simp [calculateLaborCost]
  · intro hW hh
    have hlen : W.length ≠ 0 := by simpa [List.length_eq_zero] using hW
    unfold calculateLaborCost
    rw [if_neg (not_or.mpr ⟨hlen, hh⟩)]
    constructor
    · rw [foldl_add_mul, sum_map_mul]
      ring
    · rw [foldl_add_mul]
      ring
  · norm_num [calculateLaborCost, List.foldl]
  · norm_num [calculateLaborCost, List.foldl]

/-- Witness for claim C4 at concrete inputs: the empty-wage guard and the
average form at `W = [20, 30]`, `h = 10`. -/
theorem calculateLaborCost_spec_witness :
    calculateLaborCost [] 5 = 0 ∧ calculateLaborCost [20, 30] 10 = 10 * ((20 + 30) / 2) := by
  constructor
  · exact (calculateLaborCost_spec [] 5).1 (Or.inl rfl)
  · have h2 := (calculateLaborCost_spec [20, 30] 10).2.1 (by simp) (by norm_num)
    rw [h2.2]
    norm_num

/-- Claim C5: `calculateMaterials` returns exactly the pair of the
accumulated per-item costs (`unitCost * quantity`) and per-item prices
(`itemCost * (1 + markup/100)`, markup taken from the item when
`useCustomMarkup` is set and from the global markup otherwise) over all
resolved items, and on one item of cost 50, quantity 2, global markup 20
with no custom markup it returns cost 100 and price 120. -/
theorem calculateMaterials_spec (qs : List QuoteItem) (cat : List PersistentItem) (g : ℚ) :
    calculateMaterials qs cat g =
      ⟨(qs.map (specItemCost cat)).sum, (qs.map (specItemPrice cat g)).sum⟩
    ∧ calculateMaterials [⟨"i1", 2⟩] [⟨"i1", "x", 50, false, 0⟩] 20 = ⟨100, 120⟩ := by
  constructor
  · unfold calculateMaterials
    rw [calculateMaterials_foldl]
    simp
  · norm_num [calculateMaterials, materialsStep, List.find?]

/-- Claim C6: a quote item whose `itemId` matches no catalog entry is
skipped by `calculateMaterials`: removing it from the list leaves both
accumulated totals unchanged (it contributes 0 to cost and price), and the
computation is a total function (it cannot throw). -/
theorem calculateMaterials_dangling (pre post : List QuoteItem) (q : QuoteItem)
    (cat : List PersistentItem) (g : ℚ)
    (h : cat.find? (fun i => i.id = q.itemId) = none) :
    calculateMaterials (pre ++ q :: post) cat g = calculateMaterials (pre ++ post) cat g := by
  unfold calculateMaterials
  rw [List.foldl_append, List.foldl_append, List.foldl_cons]
  have hstep : materialsStep cat g (pre.foldl (materialsStep cat g) ⟨0, 0⟩) q
      = pre.foldl (materialsStep cat g) ⟨0, 0⟩ := by
    unfold materialsStep
    rw [h]
  rw [hstep]

/-- Witness for claim C6: the dangling item `"ghost"` contributes nothing
against a catalog holding only `"i1"`. -/
theorem calculateMaterials_dangling_witness :
    calculateMaterials ([] ++ ⟨"ghost", 3⟩ :: []) [⟨"i1", "x", 50, false, 0⟩] 20
      = calculateMaterials ([] ++ []) [⟨"i1", "x", 50, false, 0⟩] 20 :=
  calculateMaterials_dangling [] [] ⟨"ghost", 3⟩ [⟨"i1", "x", 50, false, 0⟩] 20 (by decide)

/-- Claim C7: the derived margin is 0 whenever the total price is not
greater than 0 — in particular in the state with no labor and no materials —
and equals `profit / totalPrice * 100` whenever the total price is
positive. -/
theorem margin_spec (s : AppState) :
    (totalPriceOf s ≤ 0 → marginOf s = 0)
    ∧ (totalPriceOf s > 0 → marginOf s = profitOf s / totalPriceOf s * 100)
    ∧ marginOf c7Empty = 0 := by
  refine ⟨?_, ?_, ?_⟩
  · intro hle
    rw [marginOf, if_neg (not_lt.mpr hle)]
  · intro hgt
    rw [marginOf, if_pos hgt]
  · norm_num [marginOf, totalPriceOf, laborPriceOf, materialsOf, calculateMaterials,
      DEFAULT_SETTINGS, c7Empty]

/-- Witness for claim C7: both guard branches at concrete states — the
empty state has margin 0, and a state with 8 labor hours has margin
`profit / totalPrice * 100`. -/
theorem margin_spec_witness :
    marginOf c7Empty = 0
    ∧ marginOf c7Labor = profitOf c7Labor / totalPriceOf c7Labor * 100 := by
  constructor
  · exact (margin_spec c7Empty).1
      (by norm_num [totalPriceOf, laborPriceOf, materialsOf, calculateMaterials,
        DEFAULT_SETTINGS, c7Empty])
  · exact (margin_spec c7Labor).2.1
      (by norm_num [totalPriceOf, laborPriceOf, materialsOf, calculateMaterials,
        DEFAULT_SETTINGS, c7Labor])

/-- Claim C8: a parsed settings blob lacking the `savedQuotes` field loads
successfully: the migration initializes `savedQuotes` to the empty list and
alters no other field. -/
theorem migrateSettings_spec (parsed : ParsedSettings) (h : parsed.savedQuotes = none) :
    (migrateSettings parsed).savedQuotes = []
    ∧ (migrateSettings parsed).targetHourly = parsed.targetHourly
    ∧ (migrateSettings parsed).wages = parsed.wages
    ∧ (migrateSettings parsed).globalMarkup = parsed.globalMarkup
    ∧ (migrateSettings parsed).persistentItems = parsed.persistentItems := by
  refine ⟨?_, rfl, rfl, rfl, rfl⟩
  simp [migrateSettings, h]

/-- Witness for claim C8 at a concrete blob without `savedQuotes`. -/
theorem migrateSettings_spec_witness :
    (migrateSettings ⟨100, [25], 20, [], none⟩).savedQuotes = []
    ∧ (migrateSettings ⟨100, [25], 20, [], none⟩).targetHourly = 100 :=
  ⟨(migrateSettings_spec ⟨100, [25], 20, [], none⟩ rfl).1,
   (migrateSettings_spec ⟨100, [25], 20, [], none⟩ rfl).2.1⟩

/-- Claim C9: saving with an empty working-quote name aborts with no state
change — the state is returned untouched (no `SavedQuote` created,
`savedQuotes`, items, hours and name unchanged) and the validation message
is surfaced. -/
theorem saveCurrentQuote_emptyName (freshId today : String) (s : AppState)
    (h : s.quoteName = "") :
    (saveCurrentQuote freshId today s).1 = s
    ∧ (saveCurrentQuote freshId today s).2 = "Please enter a name for the quote" := by
  have htrim : jsTrim s.quoteName = "" := by rw [h]; rfl
  unfold saveCurrentQuote
  rw [if_pos htrim]
  exact ⟨rfl, rfl⟩

/-- Witness for claim C9 at a concrete state with an empty name. -/
theorem saveCurrentQuote_emptyName_witness :
    (saveCurrentQuote "id1" "d1" c9State).1 = c9State
    ∧ (saveCurrentQuote "id1" "d1" c9State).2 = "Please enter a name for the quote" :=
  saveCurrentQuote_emptyName "id1" "d1" c9State rfl

/-- Claim C10: when the working quote's (trimmed) name is non-empty — the
condition under which the save succeeds — the save changes exactly two
things: it prepends the new `SavedQuote` (snapshotting the current items,
hours and the freshly computed total price) to `savedQuotes` and resets the
quote name to the empty string; the working items and hours and every other
settings field are unchanged. -/
theorem saveCurrentQuote_success (freshId today : String) (s : AppState)
    (h : jsTrim s.quoteName ≠ "") :
    (saveCurrentQuote freshId today s).1.settings.savedQuotes =
      { id := freshId
        name := s.quoteName
        date := today
        items := s.quoteItems
        laborHours := s.laborHours
        totalPrice :=
          (calculateMaterials s.quoteItems s.settings.persistentItems
            s.settings.globalMarkup).price
            + s.laborHours * s.settings.targetHourly } :: s.settings.savedQuotes
    ∧ (saveCurrentQuote freshId today s).1.quoteName = ""
    ∧ (saveCurrentQuote freshId today s).1.quoteItems = s.quoteItems
    ∧ (saveCurrentQuote freshId today s).1.laborHours = s.laborHours
    ∧ (saveCurrentQuote freshId today s).1.settings.targetHourly = s.settings.targetHourly
    ∧ (saveCurrentQuote freshId today s).1.settings.wages = s.settings.wages
    ∧ (saveCurrentQuote freshId today s).1.settings.globalMarkup = s.settings.globalMarkup
    ∧ (saveCurrentQuote freshId today s).1.settings.persistentItems
        = s.settings.persistentItems
    ∧ (saveCurrentQuote freshId today s).2 = "Quote saved!" := by
  unfold saveCurrentQuote
  rw [if_neg h]
  exact ⟨rfl, rfl, rfl, rfl, rfl, rfl, rfl, rfl, rfl⟩

/-- Witness for claim C10 at a concrete state named `"Job"`. -/
theorem saveCurrentQuote_success_witness :
    (saveCurrentQuote "id9" "d9" c10State).1.quoteName = ""
    ∧ (saveCurrentQuote "id9" "d9" c10State).1.quoteItems = c10State.quoteItems
    ∧ (saveCurrentQuote "id9" "d9" c10State).1.laborHours = c10State.laborHours :=
  ⟨(saveCurrentQuote_success "id9" "d9" c10State (by decide)).2.1,
   (saveCurrentQuote_success "id9" "d9" c10State (by decide)).2.2.1,
   (saveCurrentQuote_success "id9" "d9" c10State (by decide)).2.2.2.1⟩

end QuoteCalc
